import Mathlib

/-!
Verification development for `gbiz_bulk_collector.py`, a one-file tool that
dumps corporate numbers/names from the gBizINFO list endpoint and enriches
each number with basic-information details, persisting both stages as
append-only CSV files.

The Python source is shallowly embedded: CSV files become explicit
in-memory values (existence flag plus a list of lines, each line a list of
cell strings; the csv encoding/decoding of a line is assumed faithful),
dict-shaped rows become association lists whose values model Python
scalars rendered as strings (`none` models Python `None`), and the network
is an explicit oracle passed to each function.  All definitions follow the
source; printing, sleeping and progress reporting have no observable
effect on the claims and are omitted.
-/

set_option autoImplicit false

namespace Gbiz

/-- Drop leading and trailing whitespace characters from a character list. -/
def stripChars (l : List Char) : List Char :=
  (((l.dropWhile Char.isWhitespace).reverse.dropWhile Char.isWhitespace).reverse)

/-- Models Python `str.strip()` (drop leading/trailing whitespace; the
identifiers in scope are ASCII, where `Char.isWhitespace` and Python's
whitespace class agree). -/
def pyStrip (s : String) : String := ⟨stripChars s.data⟩

/-- A dict-shaped row: association list from column name to a scalar.
`none` models Python `None`; `some s` models a scalar rendered as the
string `s`.  Lookup is first-match; the headers in scope have distinct
column names. -/
abbrev Record := List (String × Option String)

/-- First-match association lookup.  `none` models an absent key,
`some v` a present key with value `v` (itself possibly Python `None`). -/
def dictGet : Record → String → Option (Option String)
  | [], _ => none
  | (k', v) :: t, k => if k' = k then some v else dictGet t k

/-- Models Python `row.get(k)`: absent key and stored `None` both give `None`. -/
def pyGet (r : Record) (k : String) : Option String :=
  match dictGet r k with
  | some v => v
  | none => none

/-- Models `(row.get(k) or "")`: absent key, stored `None` and the empty
string all collapse to `""`. -/
def getOrEmpty (r : Record) (k : String) : String :=
  match dictGet r k with
  | some (some s) => s
  | some none => ""
  | none => ""

/-- Models `row.get(k, "")` followed by the csv writer rendering `None`
as the empty cell. -/
def cellValue (r : Record) (k : String) : String :=
  match dictGet r k with
  | some (some s) => s
  | some none => ""
  | none => ""

theorem cellValue_eq_getOrEmpty (r : Record) (k : String) :
    cellValue r k = getOrEmpty r k := by
  cases h : dictGet r k with
  | none => simp [cellValue, getOrEmpty, h]
  | some v => cases v <;> simp [cellValue, getOrEmpty, h]

/-- A CSV file on disk: whether `os.path.exists` holds, and its decoded
lines (each line a list of cell strings).  The first line, when the file
was written by this tool, is the header. -/
structure CsvFile where
  existsOnDisk : Bool
  lines : List (List String)
deriving DecidableEq, Repr

/-- Models one `csv.DictReader` row: each header column is present, keyed
to the cell at its position (`none` = `restval` for a short line). -/
def rowOfLine (header : List String) (line : List String) : Record :=
  header.enum.map (fun p => (p.2, line.get? p.1))

/-- Models iterating `csv.DictReader(f)`: the first line is the header,
blank lines are skipped, every other line becomes a dict row. -/
def csvRows (f : CsvFile) : List Record :=
  match f.lines with
  | [] => []
  | header :: body => (body.filter (fun l => l ≠ [])).map (rowOfLine header)

/-- `read_existing_numbers`: collect the stripped, non-empty
`corporate_number` column of an existing CSV; empty set when the file
does not exist.  (The Python set is modelled as a list; only membership
is ever used.) -/
def read_existing_numbers (f : CsvFile) : List String :=
  if f.existsOnDisk then
    (csvRows f).filterMap (fun row =>
      let c := pyStrip (getOrEmpty row "corporate_number")
      if c = "" then none else some c)
  else []

/-- The cells `csv.DictWriter.writerow({k: row.get(k, "") for k in header})`
emits: one cell per header entry, in header order. -/
def renderRow (header : List String) (r : Record) : List String :=
  header.map (fun k => cellValue r k)

/-- `append_rows`: open in append mode (creating the file), write the
header first iff the file did not exist, then one rendered line per
record. -/
def append_rows (f : CsvFile) (rows : List Record) (header : List String) : CsvFile :=
  { existsOnDisk := true
    lines := f.lines ++ (if f.existsOnDisk then [] else [header]) ++ rows.map (renderRow header) }

/-- `BASIC_FIELDS`: the fixed 11-column schema of the enriched file. -/
def BASIC_FIELDS : List String :=
  [ "corporate_number"
  , "name"
  , "date_of_establishment"
  , "employee_number"
  , "capital_stock"
  , "prefecture_code"
  , "city_code"
  , "postal_code"
  , "location"
  , "company_url"
  , "business_summary" ]

/-- The inline header `["corporate_number", "name"]` used for the list file. -/
def LIST_HEADER : List String := ["corporate_number", "name"]

example : read_existing_numbers ⟨true, [["corporate_number", "name"], ["9", "Z"], [" 9 ", "W"], ["", "E"]]⟩ = ["9", "9"] := by decide

example : append_rows ⟨false, []⟩ [[("name", some "A")]] LIST_HEADER =
    ⟨true, [LIST_HEADER, ["", "A"]]⟩ := by decide

/-! ## HTTP layer

The JSON bodies of both endpoints are objects whose only consulted field
is `"hojin-infos"`, an array of items; each item is modelled as a
`Record`.  A network interaction is an `HttpOutcome`: either an HTTP
response (status, text, parsed body) or one of the two connection-level
failures `requests` can raise. -/

/-- The `"hojin-infos"` field of a response body: `none` models an absent
field, `some l` the item array `l`. -/
structure ApiJson where
  hojin_infos : Option (List Record)
deriving DecidableEq, Repr

/-- Outcome of one `session.get`: a response, a timeout, or a
connection-level error. -/
inductive HttpOutcome where
  | response (status : Nat) (text : String) (body : ApiJson)
  | timeout
  | connectionError (msg : String)
deriving DecidableEq, Repr

/-- `TIMEOUT`: request deadline in seconds. -/
def TIMEOUT : Nat := 60

/-- Models the Python slice `s[:n]` (first `n` code points). -/
def pyTake (s : String) (n : Nat) : String := ⟨s.data.take n⟩

/-- The `RuntimeError`s raised by the HTTP helpers, carrying the message
data the source interpolates. -/
inductive GbizError where
  | httpError (status : Nat) (bodyTrunc : String)
  | timeoutError (seconds : Nat)
  | connectionError (msg : String)
deriving DecidableEq, Repr

/-- `_get_json`: 204 is normalized to an empty-array wrapper, any other
non-200 status raises `HTTP {status}: {text[:300]}`, timeouts and
connection errors are re-raised as `RuntimeError`s. -/
def _get_json (o : HttpOutcome) : Except GbizError ApiJson :=
  match o with
  | .response status text body =>
    if status = 204 then .ok ⟨some []⟩
    else if status ≠ 200 then .error (.httpError status (pyTake text 300))
    else .ok body
  | .timeout => .error (.timeoutError TIMEOUT)
  | .connectionError msg => .error (.connectionError ("Connection error: " ++ msg))

/-- `fetch_basic_with_session`: on 200 return the first item of
`js.get("hojin-infos") or []` (or `None` when empty); 204 and 404 both
return `None`; any other status raises `HTTP {status}: {text[:300]}`. -/
def fetch_basic_with_session (status : Nat) (text : String) (body : ApiJson) :
    Except GbizError (Option Record) :=
  if status = 200 then .ok (body.hojin_infos.getD []).head?
  else if status = 204 ∨ status = 404 then .ok none
  else .error (.httpError status (pyTake text 300))

/-! ## Pagination Collector (`iter_corporate_list`)

The token, prefecture code, corporate type and `exist_flg` only shape the
query string; with them fixed, the list endpoint is a function from the
page number to an `HttpOutcome` (`server`).  The generator is consumed in
full by both call sites, so it is modelled as the strict value below:
everything yielded before termination or before an unhandled
`_get_json` exception, the number of requests issued, and the exception
(if one escaped). -/

/-- What one full consumption of the `iter_corporate_list` generator
produced. -/
structure IterResult where
  yielded : List Record
  requests : Nat
  failed : Option GbizError
deriving DecidableEq, Repr

/-- One yielded dict `{"corporate_number": it.get(...), "name": it.get(...)}`. -/
def yieldRecord (it : Record) : Record :=
  [("corporate_number", pyGet it "corporate_number"), ("name", pyGet it "name")]

/-- The page loop of `iter_corporate_list`, recursing on the number of
pages left in `range(1, max_pages + 1)`.  For each page: request; on an
escaped exception stop (the request still counted); if
`js.get("hojin-infos") or []` is empty, `break`; otherwise yield every
item; if the page was short (`len(items) < limit`), `break`. -/
def iterPagesGo (server : Nat → HttpOutcome) (limit : Int) : Nat → Nat → IterResult
  | _, 0 => ⟨[], 0, none⟩
  | page, budget + 1 =>
    match _get_json (server page) with
    | .error e => ⟨[], 1, some e⟩
    | .ok js =>
      let items := js.hojin_infos.getD []
      if items = [] then ⟨[], 1, none⟩
      else if (items.length : Int) < limit then ⟨items.map yieldRecord, 1, none⟩
      else
        let r := iterPagesGo server limit (page + 1) budget
        ⟨items.map yieldRecord ++ r.yielded, r.requests + 1, r.failed⟩

/-- `iter_corporate_list` for one prefecture: pages `1 .. max_pages`
(an empty range when `max_pages ≤ 0`). -/
def iter_corporate_list (server : Nat → HttpOutcome) (limit : Int) (max_pages : Int) :
    IterResult :=
  iterPagesGo server limit 1 max_pages.toNat

/-! ## Enrichment Runner (`_run_hydrate`)

The detail endpoint is an oracle `fetch : Nat → String → FetchResult`
giving the outcome of the `n`-th fetch call of the run (0-based) for a
given corporate number: `fetch_basic_with_session` either returns an
optional record or raises.  Progress printing, sleeping and row counting
have no effect on the observable state and are omitted; the `done`
counter is kept. -/

/-- Result of one `fetch_basic_with_session` call: a normal return
(`none` = not found) or a raised exception. -/
inductive FetchResult where
  | success (d : Option Record)
  | failure
deriving DecidableEq, Repr

/-- `(row.get("corporate_number") or "").strip()` — computed identically
in the dump loops, the pipeline loop and `_run_hydrate`. -/
def stripCno (row : Record) : String := pyStrip (getOrEmpty row "corporate_number")

/-- The mutable state of `_run_hydrate`'s loop, plus the trace `calls` of
corporate numbers passed to `fetch_basic_with_session`, in order. -/
structure HydrateState where
  processed : List String
  out : CsvFile
  added : Nat
  errors : Nat
  done : Nat
  calls : List String
deriving DecidableEq, Repr

/-- One iteration of `_run_hydrate`'s row loop: skip empty/processed
numbers before any network call; otherwise fetch (`d = None` on an
exception, with the error counted); on a record, append it and mark the
number processed; `done` counts every non-skipped row. -/
def hydrateStep (fetch : Nat → String → FetchResult) (s : HydrateState) (row : Record) :
    HydrateState :=
  let cno := stripCno row
  if cno = "" ∨ cno ∈ s.processed then s
  else
    match fetch s.calls.length cno with
    | .failure =>
      { s with errors := s.errors + 1, done := s.done + 1, calls := s.calls ++ [cno] }
    | .success none =>
      { s with done := s.done + 1, calls := s.calls ++ [cno] }
    | .success (some d) =>
      { s with out := append_rows s.out [d] BASIC_FIELDS
               processed := s.processed ++ [cno]
               added := s.added + 1
               done := s.done + 1
               calls := s.calls ++ [cno] }

/-- The row loop of `_run_hydrate` over a list of input rows. -/
def runHydrate (fetch : Nat → String → FetchResult) (s : HydrateState) (rows : List Record) :
    HydrateState :=
  rows.foldl (hydrateStep fetch) s

/-- `_run_hydrate`: build the resume set from the output file when
`resume` is set, bail out with zero work when the input file is missing,
otherwise run the row loop over the input's `DictReader` rows.  (The
source returns `added`; the whole final state is exposed here.) -/
def _run_hydrate (fetch : Nat → String → FetchResult) (infile out : CsvFile)
    (resume : Bool) : HydrateState :=
  let s0 : HydrateState :=
    { processed := if resume then read_existing_numbers out else []
      out := out, added := 0, errors := 0, done := 0, calls := [] }
  if infile.existsOnDisk = false then s0
  else runHydrate fetch s0 (csvRows infile)

example :
    (_run_hydrate (fun _ c => if c = "1" then .success (some [("corporate_number", some "1")]) else .failure)
      ⟨true, [["corporate_number", "name"], ["1", "A"], ["2", "B"], ["1", "A"]]⟩
      ⟨false, []⟩ false) =
    { processed := ["1"]
      out := ⟨true, [BASIC_FIELDS, ["1", "", "", "", "", "", "", "", "", "", ""]]⟩
      added := 1, errors := 1, done := 2, calls := ["1", "2"] } := by decide

/-! ## Collection branches of `main` (dump and pipeline)

With the token, corporate type and `exist_flg` fixed for a run, the list
endpoint is a function `server : String → Nat → HttpOutcome` from the
prefecture code and page number to an outcome. -/

/-- `f"{i:02d}"` for `1 ≤ i ≤ 47`. -/
def twoDigit (n : Nat) : String := if n < 10 then "0" ++ toString n else toString n

/-- `[f"{i:02d}" for i in range(1, 48)]`: the 47 prefecture codes. -/
def prefCodes : List String := (List.range 47).map (fun i => twoDigit (i + 1))

/-- The state of a collection loop, plus the trace `appended` of row
dicts passed to `append_rows` during the run, and the total number of
list-endpoint requests issued. -/
structure DumpState where
  dest : CsvFile
  seen : List String
  appended : List Record
  total_new : Nat
  requests : Nat
deriving DecidableEq, Repr

/-- The row body shared by the dump and pipeline collection loops: skip a
yielded record whose stripped number is empty or already in `seen`;
otherwise append it to the list file and add the number to `seen`. -/
def dumpRowStep (s : DumpState) (row : Record) : DumpState :=
  let cno := stripCno row
  if cno = "" ∨ cno ∈ s.seen then s
  else
    { s with dest := append_rows s.dest [row] LIST_HEADER
             seen := s.seen ++ [cno]
             appended := s.appended ++ [row]
             total_new := s.total_new + 1 }

/-- `min(max(1, args.limit), 5000)`: the page size the dump branch passes
to `iter_corporate_list`. -/
def dumpLimitPassed (l : Int) : Int := min (max 1 l) 5000

/-- `min(max(1, args.max_pages), 10)`: the page ceiling the dump branch
passes to `iter_corporate_list`. -/
def dumpMaxPagesPassed (m : Int) : Int := min (max 1 m) 10

/-- The per-prefecture loop of the dump branch: one `seen` set threads
through all prefectures; an exception escaping `iter_corporate_list`
aborts the remaining prefectures (rows yielded before it are already
appended). -/
def runDumpPrefs (server : String → Nat → HttpOutcome) (limit max_pages : Int) :
    List String → DumpState → DumpState × Option GbizError
  | [], s => (s, none)
  | pref :: rest, s =>
    let it := iter_corporate_list (server pref) limit max_pages
    let s' := it.yielded.foldl dumpRowStep { s with requests := s.requests + it.requests }
    match it.failed with
    | some e => (s', some e)
    | none => runDumpPrefs server limit max_pages rest s'

/-- The dump branch of `main`: build `seen` from the output file iff
`--resume`, choose the targets, clamp `--limit` and `--max-pages`, and
run the per-prefecture loop. -/
def runDump (server : String → Nat → HttpOutcome) (out : CsvFile) (resume : Bool)
    (pref : String) (limitArg maxPagesArg : Int) : DumpState × Option GbizError :=
  let seen := if resume then read_existing_numbers out else []
  let targets := if pref = "all" then prefCodes else [pref]
  runDumpPrefs server (dumpLimitPassed limitArg) (dumpMaxPagesPassed maxPagesArg) targets
    { dest := out, seen := seen, appended := [], total_new := 0, requests := 0 }

/-- The per-prefecture loop of the pipeline branch's dump phase: unlike
the dump branch, `seen` is re-initialized at every prefecture (re-read
from the list file iff `--resume`, empty otherwise), and `--limit` /
`--max-pages` are passed to `iter_corporate_list` unmodified. -/
def runPipelinePrefs (server : String → Nat → HttpOutcome) (resume : Bool)
    (limit max_pages : Int) : List String → DumpState → DumpState × Option GbizError
  | [], s => (s, none)
  | pref :: rest, s =>
    let seen := if resume then read_existing_numbers s.dest else []
    let it := iter_corporate_list (server pref) limit max_pages
    let s' := it.yielded.foldl dumpRowStep
      { s with seen := seen, requests := s.requests + it.requests }
    match it.failed with
    | some e => (s', some e)
    | none => runPipelinePrefs server resume limit max_pages rest s'

/-- The dump phase of the pipeline branch of `main`. -/
def runPipelineDump (server : String → Nat → HttpOutcome) (list_out : CsvFile)
    (resume : Bool) (pref : String) (limitArg maxPagesArg : Int) :
    DumpState × Option GbizError :=
  let targets := if pref = "all" then prefCodes else [pref]
  runPipelinePrefs server resume limitArg maxPagesArg targets
    { dest := list_out, seen := [], appended := [], total_new := 0, requests := 0 }

/-! ## `main` -/

/-- The subcommand chosen on the command line (`none_given` = no
subcommand: `main` prints help). -/
inductive Cmd where
  | dump
  | hydrate
  | pipeline
  | none_given
deriving DecidableEq, Repr

/-- The value of `main()`: `some (code, listRequests, detailCalls)` when
`main` returns normally with exit status `code` after issuing
`listRequests` list-endpoint requests and the detail fetches in
`detailCalls`; `none` when an exception escaped a collection phase (the
process then dies with a traceback instead of `main` returning). -/
def mainModel (tok : Option String) (cmd : Cmd)
    (server : String → Nat → HttpOutcome) (fetch : Nat → String → FetchResult)
    (dump_out list_out enrich_out infile : CsvFile) (resume : Bool) (pref : String)
    (limitArg maxPagesArg : Int) : Option (Int × Nat × List String) :=
  if (tok.getD "") = "" then some (2, 0, [])
  else
    match cmd with
    | .dump =>
      match runDump server dump_out resume pref limitArg maxPagesArg with
      | (s, none) => some (0, s.requests, [])
      | (_, some _) => none
    | .hydrate =>
      let s := _run_hydrate fetch infile enrich_out resume
      some (if (s.added : Int) ≥ 0 then 0 else 1, 0, s.calls)
    | .pipeline =>
      match runPipelineDump server list_out resume pref limitArg maxPagesArg with
      | (s, none) =>
        let h := _run_hydrate fetch s.dest enrich_out resume
        some (0, s.requests, h.calls)
      | (_, some _) => none
    | .none_given => some (0, 0, [])

/-! ## Helper lemmas -/

theorem iterPagesGo_requests_le (server : Nat → HttpOutcome) (limit : Int) :
    ∀ (budget page : Nat), (iterPagesGo server limit page budget).requests ≤ budget := by
  intro budget
  induction budget with
  | zero => intro page; simp [iterPagesGo]
  | succ b ih =>
    intro page
    simp only [iterPagesGo]
    cases _get_json (server page) with
    | error e => simp
    | ok js =>
      by_cases he : js.hojin_infos.getD [] = []
      · simp [he]
      · by_cases hl : ((js.hojin_infos.getD []).length : Int) < limit
        · simp [he, hl]
        · simpa [he, hl] using ih (page + 1)

/-- Number of failing fetch outcomes along a call trace whose first call
has index `i`. -/
def failedCallsFrom (fetch : Nat → String → FetchResult) (i : Nat) : List String → Nat
  | [] => 0
  | c :: t => (if fetch i c = .failure then 1 else 0) + failedCallsFrom fetch (i + 1) t

/-- Number of failing fetch outcomes along a run's call trace. -/
def failedCalls (fetch : Nat → String → FetchResult) (calls : List String) : Nat :=
  failedCallsFrom fetch 0 calls

theorem failedCallsFrom_snoc (fetch : Nat → String → FetchResult) (c : String) :
    ∀ (l : List String) (i : Nat),
      failedCallsFrom fetch i (l ++ [c])
        = failedCallsFrom fetch i l + (if fetch (i + l.length) c = .failure then 1 else 0) := by
  intro l
  induction l with
  | nil => intro i; simp [failedCallsFrom]
  | cons a t ih =>
    intro i
    simp only [List.cons_append, failedCallsFrom, List.length_cons, List.append_eq]
    rw [ih (i + 1)]
    have hidx : i + 1 + t.length = i + (t.length + 1) := by omega
    rw [hidx]
    omega

theorem runHydrate_nil (fetch : Nat → String → FetchResult) (s : HydrateState) :
    runHydrate fetch s [] = s := rfl

theorem runHydrate_cons (fetch : Nat → String → FetchResult) (s : HydrateState)
    (row : Record) (rest : List Record) :
    runHydrate fetch s (row :: rest) = runHydrate fetch (hydrateStep fetch s row) rest := rfl

theorem runHydrate_append (fetch : Nat → String → FetchResult) (s : HydrateState)
    (l1 l2 : List Record) :
    runHydrate fetch s (l1 ++ l2) = runHydrate fetch (runHydrate fetch s l1) l2 :=
  List.foldl_append _ _ _ _

/-- Case analysis of one `_run_hydrate` loop iteration. -/
theorem hydrateStep_char (fetch : Nat → String → FetchResult) (s : HydrateState)
    (row : Record) :
    (hydrateStep fetch s row = s ∧ (stripCno row = "" ∨ stripCno row ∈ s.processed))
    ∨ (stripCno row ≠ "" ∧ stripCno row ∉ s.processed
       ∧ (hydrateStep fetch s row).calls = s.calls ++ [stripCno row]
       ∧ (hydrateStep fetch s row).done = s.done + 1
       ∧ ((∃ d, fetch s.calls.length (stripCno row) = .success (some d)
             ∧ (hydrateStep fetch s row).processed = s.processed ++ [stripCno row]
             ∧ (hydrateStep fetch s row).out = append_rows s.out [d] BASIC_FIELDS
             ∧ (hydrateStep fetch s row).errors = s.errors
             ∧ (hydrateStep fetch s row).added = s.added + 1)
          ∨ ((hydrateStep fetch s row).processed = s.processed
             ∧ (hydrateStep fetch s row).out = s.out
             ∧ (hydrateStep fetch s row).added = s.added
             ∧ ((fetch s.calls.length (stripCno row) = .failure
                  ∧ (hydrateStep fetch s row).errors = s.errors + 1)
                ∨ (fetch s.calls.length (stripCno row) = .success none
                  ∧ (hydrateStep fetch s row).errors = s.errors))))) := by
  by_cases h : stripCno row = "" ∨ stripCno row ∈ s.processed
  · exact Or.inl ⟨by simp [hydrateStep, h], h⟩
  · have h1 : stripCno row ≠ "" := fun hh => h (Or.inl hh)
    have h2 : stripCno row ∉ s.processed := fun hh => h (Or.inr hh)
    right
    cases hf : fetch s.calls.length (stripCno row) with
    | failure =>
      have he : hydrateStep fetch s row
          = { s with errors := s.errors + 1, done := s.done + 1,
                     calls := s.calls ++ [stripCno row] } := by
        simp [hydrateStep, h, hf]
      exact ⟨h1, h2, by rw [he], by rw [he],
        Or.inr ⟨by rw [he], by rw [he], by rw [he], Or.inl ⟨rfl, by rw [he]⟩⟩⟩
    | success d =>
      cases d with
      | none =>
        have he : hydrateStep fetch s row
            = { s with done := s.done + 1, calls := s.calls ++ [stripCno row] } := by
          simp [hydrateStep, h, hf]
        exact ⟨h1, h2, by rw [he], by rw [he],
          Or.inr ⟨by rw [he], by rw [he], by rw [he], Or.inr ⟨rfl, by rw [he]⟩⟩⟩
      | some d =>
        have he : hydrateStep fetch s row
            = { s with out := append_rows s.out [d] BASIC_FIELDS
                       processed := s.processed ++ [stripCno row]
                       added := s.added + 1
                       done := s.done + 1
                       calls := s.calls ++ [stripCno row] } := by
          simp [hydrateStep, h, hf]
        exact ⟨h1, h2, by rw [he], by rw [he],
          Or.inl ⟨d, rfl, by rw [he], by rw [he], by rw [he], by rw [he]⟩⟩

/-- An identifier in the resume set at loop entry stays there and is
never passed to the fetch oracle. -/
theorem runHydrate_skip (fetch : Nat → String → FetchResult) (rows : List Record) :
    ∀ (s : HydrateState) (x : String), x ∈ s.processed → x ∉ s.calls →
      x ∈ (runHydrate fetch s rows).processed ∧ x ∉ (runHydrate fetch s rows).calls := by
  induction rows with
  | nil => intro s x hp hc; exact ⟨hp, hc⟩
  | cons row rest ih =>
    intro s x hp hc
    rw [runHydrate_cons]
    rcases hydrateStep_char fetch s row with ⟨heq, _⟩ | ⟨_, h2, hcalls, _, hrest⟩
    · rw [heq]; exact ih s x hp hc
    · have hcnox : stripCno row ≠ x := fun hh => h2 (hh ▸ hp)
      have hp' : x ∈ (hydrateStep fetch s row).processed := by
        rcases hrest with ⟨d, _, hpr, _⟩ | ⟨hpr, _⟩
        · rw [hpr]; exact List.mem_append_left _ hp
        · rw [hpr]; exact hp
      have hc' : x ∉ (hydrateStep fetch s row).calls := by
        rw [hcalls]
        intro hx
        rcases List.mem_append.1 hx with hx | hx
        · exact hc hx
        · exact hcnox (List.mem_singleton.1 hx).symm
      exact ih _ x hp' hc'

/-- The call trace only grows along the loop. -/
theorem runHydrate_calls_mono (fetch : Nat → String → FetchResult) (rows : List Record) :
    ∀ (s : HydrateState) (x : String), x ∈ s.calls → x ∈ (runHydrate fetch s rows).calls := by
  induction rows with
  | nil => intro s x h; exact h
  | cons row rest ih =>
    intro s x h
    rw [runHydrate_cons]
    rcases hydrateStep_char fetch s row with ⟨heq, _⟩ | ⟨_, _, hcalls, _, _⟩
    · rw [heq]; exact ih s x h
    · exact ih _ x (by rw [hcalls]; exact List.mem_append_left _ h)

/-- Identifiers enter `processed` only by being fetched. -/
theorem runHydrate_processed_origin (fetch : Nat → String → FetchResult)
    (rows : List Record) :
    ∀ (s : HydrateState) (x : String), x ∈ (runHydrate fetch s rows).processed →
      x ∈ s.processed ∨ x ∈ (runHydrate fetch s rows).calls := by
  induction rows with
  | nil => intro s x h; exact Or.inl h
  | cons row rest ih =>
    intro s x h
    rw [runHydrate_cons] at h ⊢
    rcases hydrateStep_char fetch s row with ⟨heq, _⟩ | ⟨_, _, hcalls, _, hrest⟩
    · rw [heq] at h ⊢; exact ih s x h
    · rcases ih _ x h with hx | hx
      · rcases hrest with ⟨d, _, hpr, _⟩ | ⟨hpr, _⟩
        · rw [hpr] at hx
          rcases List.mem_append.1 hx with hx | hx
          · exact Or.inl hx
          · refine Or.inr (runHydrate_calls_mono fetch rest _ x ?_)
            rw [hcalls]
            exact List.mem_append_right _ hx
        · rw [hpr] at hx; exact Or.inl hx
      · exact Or.inr hx

/-- A row whose stripped identifier is `x`, not yet processed, forces a
fetch call for `x` at some point of the run. -/
theorem runHydrate_reaches (fetch : Nat → String → FetchResult) :
    ∀ (rows : List Record) (s : HydrateState) (x : String) (row : Record),
      row ∈ rows → stripCno row = x → x ≠ "" → x ∉ s.processed →
      x ∈ (runHydrate fetch s rows).calls := by
  intro rows
  induction rows with
  | nil => intro s x row h; exact absurd h (List.not_mem_nil row)
  | cons r rest ih =>
    intro s x row hmem hx hne hnp
    rw [runHydrate_cons]
    rcases List.mem_cons.1 hmem with hr | hr
    · subst hr
      rcases hydrateStep_char fetch s row with ⟨_, habs⟩ | ⟨_, _, hcalls, _, _⟩
      · rw [hx] at habs
        rcases habs with habs | habs
        · exact absurd habs hne
        · exact absurd habs hnp
      · refine runHydrate_calls_mono fetch rest _ x ?_
        rw [hcalls, hx]
        exact List.mem_append_right _ (List.mem_singleton.2 rfl)
    · by_cases hp : x ∈ (hydrateStep fetch s r).processed
      · rcases hydrateStep_char fetch s r with ⟨heq, _⟩ | ⟨_, _, hcalls, _, hrest⟩
        · rw [heq] at hp; exact absurd hp hnp
        · rcases hrest with ⟨d, _, hpr, _⟩ | ⟨hpr, _⟩
          · rw [hpr] at hp
            rcases List.mem_append.1 hp with hp | hp
            · exact absurd hp hnp
            · refine runHydrate_calls_mono fetch rest _ x ?_
              rw [hcalls]
              exact List.mem_append_right _ hp
          · rw [hpr] at hp; exact absurd hp hnp
      · exact ih _ x row hr hx hne hp

/-- An identifier none of whose fetch outcomes is a record never enters
`processed`. -/
theorem runHydrate_never_marked (fetch : Nat → String → FetchResult) (rows : List Record) :
    ∀ (s : HydrateState) (x : String), x ∉ s.processed →
      (∀ (i : Nat) (d : Record), fetch i x ≠ .success (some d)) →
      x ∉ (runHydrate fetch s rows).processed := by
  induction rows with
  | nil => intro s x h _; exact h
  | cons row rest ih =>
    intro s x hnp hnever
    rw [runHydrate_cons]
    rcases hydrateStep_char fetch s row with ⟨heq, _⟩ | ⟨_, _, _, _, hrest⟩
    · rw [heq]; exact ih s x hnp hnever
    · refine ih _ x ?_ hnever
      rcases hrest with ⟨d, hf, hpr, _⟩ | ⟨hpr, _⟩
      · rw [hpr]
        intro hx
        rcases List.mem_append.1 hx with hx | hx
        · exact hnp hx
        · have := List.mem_singleton.1 hx
          subst this
          exact hnever _ _ hf
      · rw [hpr]; exact hnp

/-- The error counter counts exactly the failing fetch calls. -/
theorem runHydrate_errors_eq (fetch : Nat → String → FetchResult) (rows : List Record) :
    ∀ (s : HydrateState), s.errors = failedCalls fetch s.calls →
      (runHydrate fetch s rows).errors = failedCalls fetch (runHydrate fetch s rows).calls := by
  induction rows with
  | nil => intro s h; exact h
  | cons row rest ih =>
    intro s h
    rw [runHydrate_cons]
    rcases hydrateStep_char fetch s row with ⟨heq, _⟩ | ⟨_, _, hcalls, _, hrest⟩
    · rw [heq]; exact ih s h
    · refine ih _ ?_
      rw [hcalls]
      unfold failedCalls
      rw [failedCallsFrom_snoc, Nat.zero_add]
      rcases hrest with ⟨d, hf, _, _, herr, _⟩ | ⟨_, _, _, ⟨hf, herr⟩ | ⟨hf, herr⟩⟩
      · rw [herr, hf, h]; simp [failedCalls]
      · rw [herr, hf, h]; simp [failedCalls]
      · rw [herr, hf, h]; simp [failedCalls]

/-! ## Claim theorems -/

/-- Claim C5: for every region and every sequence of server responses,
the Pagination Collector issues at most the configured page-count
ceiling list-endpoint requests, even if the server never returns an
empty or short page (and even when a request raises). -/
theorem c5_ceiling_enforcement (server : Nat → HttpOutcome) (limit max_pages : Int) :
    (iter_corporate_list server limit max_pages).requests ≤ max_pages.toNat :=
  iterPagesGo_requests_le server limit max_pages.toNat 1

/-- Claim C4: the Pagination Collector starts at page 1 and stops exactly
at an empty or short page: when the first page comes back with zero
items it stops after that one request emitting nothing; when the first
page holds all matching records (item count strictly below the requested
page size) it emits exactly those records and stops after that one
request; and when the first page is full it emits its items and
continues with page 2. -/
theorem c4_pagination_termination (server : Nat → HttpOutcome) (limit max_pages : Int)
    (js : ApiJson) (hm : 1 ≤ max_pages) (hok : _get_json (server 1) = .ok js) :
    (js.hojin_infos.getD [] = [] →
      iter_corporate_list server limit max_pages = ⟨[], 1, none⟩)
    ∧ (((js.hojin_infos.getD []).length : Int) < limit →
      iter_corporate_list server limit max_pages
        = ⟨(js.hojin_infos.getD []).map yieldRecord, 1, none⟩)
    ∧ (js.hojin_infos.getD [] ≠ [] →
        ¬(((js.hojin_infos.getD []).length : Int) < limit) →
      iter_corporate_list server limit max_pages
        = ⟨(js.hojin_infos.getD []).map yieldRecord
              ++ (iterPagesGo server limit 2 (max_pages.toNat - 1)).yielded,
            (iterPagesGo server limit 2 (max_pages.toNat - 1)).requests + 1,
            (iterPagesGo server limit 2 (max_pages.toNat - 1)).failed⟩) := by
  obtain ⟨k, hk⟩ : ∃ k, max_pages.toNat = k + 1 := ⟨max_pages.toNat - 1, by omega⟩
  unfold iter_corporate_list
  rw [hk]
  simp only [Nat.add_sub_cancel]
  refine ⟨?_, ?_, ?_⟩
  · intro he
    simp [iterPagesGo, hok, he]
  · intro hl
    by_cases he : js.hojin_infos.getD [] = []
    · simp [iterPagesGo, hok, he]
    · simp [iterPagesGo, hok, he, hl]
  · intro he hl
    simp [iterPagesGo, hok, he, hl]

/-- Witness for C4 at a concrete one-page server. -/
theorem c4_pagination_termination_witness :
    iter_corporate_list
        (fun p => if p = 1 then
          .response 200 "" ⟨some [[("corporate_number", some "3"), ("name", some "N")]]⟩
        else .response 204 "" ⟨none⟩) 5 10
      = ⟨[[("corporate_number", some "3"), ("name", some "N")]], 1, none⟩ := by
  have h := c4_pagination_termination
    (fun p => if p = 1 then
      .response 200 "" ⟨some [[("corporate_number", some "3"), ("name", some "N")]]⟩
    else .response 204 "" ⟨none⟩) 5 10
    ⟨some [[("corporate_number", some "3"), ("name", some "N")]]⟩ (by decide) rfl
  have h2 := h.2.1 (by decide)
  simpa [yieldRecord, pyGet, dictGet] using h2

/-- Claim C7: `_get_json` turns an HTTP 204 into an empty-list wrapper
instead of raising, and `fetch_basic_with_session` returns "no record"
for both 204 and 404 while raising an error carrying the status code and
the truncated body for any other non-200 status. -/
theorem c7_http_status_handling (status : Nat) (text : String) (body : ApiJson) :
    (_get_json (.response 204 text body) = .ok ⟨some []⟩)
    ∧ (fetch_basic_with_session 204 text body = .ok none)
    ∧ (fetch_basic_with_session 404 text body = .ok none)
    ∧ (status ≠ 200 → status ≠ 204 → status ≠ 404 →
        fetch_basic_with_session status text body
          = .error (.httpError status (pyTake text 300))) := by
  refine ⟨rfl, rfl, rfl, fun h200 h204 h404 => ?_⟩
  simp [fetch_basic_with_session, h200, h204, h404]

/-- Witness for C7 at status 500. -/
theorem c7_http_status_handling_witness :
    fetch_basic_with_session 500 "oops" ⟨none⟩ = .error (.httpError 500 "oops") := by
  have h := (c7_http_status_handling 500 "oops" ⟨none⟩).2.2.2 (by decide) (by decide) (by decide)
  simpa [pyTake] using h

/-- Claim C6: `append_rows` writes the header line exactly when the file
did not previously exist, then one rendered line per record with exactly
one cell per entry of the fixed column list in fixed order, an absent
column rendering as the empty cell; every enriched line has exactly the
11 fixed columns. -/
theorem c6_schema_stability (f : CsvFile) (rows : List Record) :
    ((append_rows f rows BASIC_FIELDS).lines
        = f.lines ++ (if f.existsOnDisk then [] else [BASIC_FIELDS])
            ++ rows.map (renderRow BASIC_FIELDS))
    ∧ (∀ r : Record, (renderRow BASIC_FIELDS r).length = 11)
    ∧ (∀ r : Record, renderRow BASIC_FIELDS r = BASIC_FIELDS.map (cellValue r))
    ∧ (∀ (r : Record) (k : String), dictGet r k = none → cellValue r k = "")
    ∧ BASIC_FIELDS.length = 11 := by
  refine ⟨rfl, fun r => ?_, fun r => rfl, fun r k h => ?_, rfl⟩
  · simp [renderRow, BASIC_FIELDS]
  · simp [cellValue, h]

/-- Witness for C6: appending a record that only carries `name` to a
fresh file yields the header plus an 11-cell line with blanks for every
missing column. -/
theorem c6_schema_stability_witness :
    ((append_rows ⟨false, []⟩ [[("name", some "A")]] BASIC_FIELDS).lines
      = [BASIC_FIELDS, renderRow BASIC_FIELDS [("name", some "A")]])
    ∧ cellValue [("name", some "A")] "postal_code" = "" := by
  have h := c6_schema_stability ⟨false, []⟩ [[("name", some "A")]]
  exact ⟨by simpa using h.1, h.2.2.2.1 _ "postal_code" (by decide)⟩

/-- Claim C2: an identifier already present in the identifier column of
the enrichment output file is never passed to the detail fetch when
`_run_hydrate` runs with resume enabled — the row is skipped before any
network call. -/
theorem c2_enrichment_skip (fetch : Nat → String → FetchResult) (infile out : CsvFile)
    (X : String) (hX : X ∈ read_existing_numbers out) :
    X ∉ (_run_hydrate fetch infile out true).calls := by
  unfold _run_hydrate
  by_cases hi : infile.existsOnDisk = false
  · rw [if_pos hi]
    simp
  · rw [if_neg hi]
    refine (runHydrate_skip fetch (csvRows infile) _ X ?_ ?_).2
    · simpa using hX
    · simp

/-- Witness for C2: the output file already holds `9`; enriching an
input that lists `9` again never fetches it. -/
theorem c2_enrichment_skip_witness :
    "9" ∈ read_existing_numbers ⟨true, [["corporate_number", "name"], ["9", "Z"]]⟩
    ∧ "9" ∉ (_run_hydrate (fun _ _ => .failure)
        ⟨true, [["corporate_number", "name"], ["9", "Z"], ["8", "Y"]]⟩
        ⟨true, [["corporate_number", "name"], ["9", "Z"]]⟩ true).calls :=
  ⟨by decide, c2_enrichment_skip _ _ _ _ (by decide)⟩

/-- Claim C3: when the detail fetch for the next row's identifier raises,
the error counter increments by exactly one, nothing is appended and
nothing is marked processed for that identifier, and the loop continues
over all later rows; moreover the error counter of a whole run counts
exactly the failing fetch calls. -/
theorem c3_error_isolation (fetch : Nat → String → FetchResult) (s0 : HydrateState)
    (pre post : List Record) (rowY : Record)
    (hY : stripCno rowY ≠ "")
    (hnp : stripCno rowY ∉ (runHydrate fetch s0 pre).processed)
    (hfail : fetch (runHydrate fetch s0 pre).calls.length (stripCno rowY) = .failure) :
    (hydrateStep fetch (runHydrate fetch s0 pre) rowY).errors
        = (runHydrate fetch s0 pre).errors + 1
    ∧ (hydrateStep fetch (runHydrate fetch s0 pre) rowY).out = (runHydrate fetch s0 pre).out
    ∧ (hydrateStep fetch (runHydrate fetch s0 pre) rowY).processed
        = (runHydrate fetch s0 pre).processed
    ∧ (hydrateStep fetch (runHydrate fetch s0 pre) rowY).added = (runHydrate fetch s0 pre).added
    ∧ runHydrate fetch s0 (pre ++ rowY :: post)
        = runHydrate fetch (hydrateStep fetch (runHydrate fetch s0 pre) rowY) post
    ∧ (s0.errors = failedCalls fetch s0.calls →
        (runHydrate fetch s0 (pre ++ rowY :: post)).errors
          = failedCalls fetch (runHydrate fetch s0 (pre ++ rowY :: post)).calls) := by
  have he : hydrateStep fetch (runHydrate fetch s0 pre) rowY
      = { runHydrate fetch s0 pre with
            errors := (runHydrate fetch s0 pre).errors + 1
            done := (runHydrate fetch s0 pre).done + 1
            calls := (runHydrate fetch s0 pre).calls ++ [stripCno rowY] } := by
    simp [hydrateStep, hY, hnp, hfail]
  refine ⟨by rw [he], by rw [he], by rw [he], by rw [he], ?_, ?_⟩
  · rw [runHydrate_append]
    rfl
  · intro h0
    exact runHydrate_errors_eq fetch _ s0 h0

/-- Witness for C3: the fetch for `7` fails, the error counter goes to 1,
and the row after `7` is still fetched. -/
theorem c3_error_isolation_witness :
    ((hydrateStep (fun _ c => if c = "7" then .failure else .success none)
        (runHydrate (fun _ c => if c = "7" then .failure else .success none)
          ⟨[], ⟨false, []⟩, 0, 0, 0, []⟩ [])
        [("corporate_number", some "7")]).errors
      = (runHydrate (fun _ c => if c = "7" then .failure else .success none)
          ⟨[], ⟨false, []⟩, 0, 0, 0, []⟩ []).errors + 1)
    ∧ runHydrate (fun _ c => if c = "7" then .failure else .success none)
        ⟨[], ⟨false, []⟩, 0, 0, 0, []⟩
        ([] ++ [("corporate_number", some "7")] :: [[("corporate_number", some "8")]])
      = runHydrate (fun _ c => if c = "7" then .failure else .success none)
          (hydrateStep (fun _ c => if c = "7" then .failure else .success none)
            (runHydrate (fun _ c => if c = "7" then .failure else .success none)
              ⟨[], ⟨false, []⟩, 0, 0, 0, []⟩ [])
            [("corporate_number", some "7")]) [[("corporate_number", some "8")]] := by
  have h := c3_error_isolation (fun _ c => if c = "7" then .failure else .success none)
    ⟨[], ⟨false, []⟩, 0, 0, 0, []⟩ [] [[("corporate_number", some "8")]]
    [("corporate_number", some "7")] (by decide) (by decide) (by decide)
  exact ⟨h.1, h.2.2.2.2.1⟩

/-! ## Round-trip lemmas: lines written by this tool parse back to their
identifier -/

theorem rowOfLine_basic (line : List String) :
    rowOfLine BASIC_FIELDS line
      = [ ("corporate_number", line.get? 0), ("name", line.get? 1)
        , ("date_of_establishment", line.get? 2), ("employee_number", line.get? 3)
        , ("capital_stock", line.get? 4), ("prefecture_code", line.get? 5)
        , ("city_code", line.get? 6), ("postal_code", line.get? 7)
        , ("location", line.get? 8), ("company_url", line.get? 9)
        , ("business_summary", line.get? 10) ] := rfl

theorem rowOfLine_list (line : List String) :
    rowOfLine LIST_HEADER line
      = [("corporate_number", line.get? 0), ("name", line.get? 1)] := rfl

theorem getOrEmpty_rowOfLine_basic (line : List String) :
    getOrEmpty (rowOfLine BASIC_FIELDS line) "corporate_number" = (line.get? 0).getD "" := by
  rw [rowOfLine_basic]
  cases h : line.get? 0 <;> simp [getOrEmpty, dictGet, h]

theorem getOrEmpty_rowOfLine_list (line : List String) :
    getOrEmpty (rowOfLine LIST_HEADER line) "corporate_number" = (line.get? 0).getD "" := by
  rw [rowOfLine_list]
  cases h : line.get? 0 <;> simp [getOrEmpty, dictGet, h]

theorem renderRow_basic_head (d : Record) :
    (renderRow BASIC_FIELDS d).get? 0 = some (cellValue d "corporate_number") := rfl

theorem renderRow_list_head (r : Record) :
    (renderRow LIST_HEADER r).get? 0 = some (cellValue r "corporate_number") := rfl

/-- A list file with a `corporate_number`-headed first line: the shape
`read_existing_numbers` actually decodes.  `x`-freedom of a file means no
body line's parsed identifier is `x`. -/
def GoodOut (x : String) (f : CsvFile) : Prop :=
  (f.existsOnDisk = false ∧ f.lines = [])
  ∨ (f.existsOnDisk = true ∧ ∃ body, f.lines = BASIC_FIELDS :: body
      ∧ ∀ line ∈ body, pyStrip ((line.get? 0).getD "") ≠ x)

theorem GoodOut_not_mem (x : String) (f : CsvFile) (h : GoodOut x f) :
    x ∉ read_existing_numbers f := by
  rcases h with ⟨he, hl⟩ | ⟨he, body, hl, hb⟩
  · simp [read_existing_numbers, he]
  · rw [read_existing_numbers, if_pos (by rw [he])]
    intro hx
    rcases List.mem_filterMap.1 hx with ⟨row, hrow, hparse⟩
    rw [csvRows, hl] at hrow
    rcases List.mem_map.1 hrow with ⟨line, hline, rfl⟩
    have hline' : line ∈ body := List.mem_of_mem_filter hline
    rw [getOrEmpty_rowOfLine_basic] at hparse
    by_cases hc : pyStrip ((line.get? 0).getD "") = ""
    · rw [if_pos hc] at hparse
      exact Option.noConfusion hparse
    · rw [if_neg hc] at hparse
      exact hb line hline' (Option.some.inj hparse ▸ rfl)

theorem GoodOut_append (x : String) (f : CsvFile) (d : Record)
    (hgood : GoodOut x f) (hid : pyStrip (cellValue d "corporate_number") ≠ x) :
    GoodOut x (append_rows f [d] BASIC_FIELDS) := by
  have hline : ∀ line ∈ [renderRow BASIC_FIELDS d], pyStrip ((line.get? 0).getD "") ≠ x := by
    intro line hl
    rw [List.mem_singleton.1 hl, renderRow_basic_head]
    simpa using hid
  rcases hgood with ⟨he, hl⟩ | ⟨he, body, hl, hb⟩
  · exact Or.inr ⟨rfl, [renderRow BASIC_FIELDS d], by simp [append_rows, he, hl], hline⟩
  · refine Or.inr ⟨rfl, body ++ [renderRow BASIC_FIELDS d], by simp [append_rows, he, hl], ?_⟩
    intro line hl'
    rcases List.mem_append.1 hl' with h | h
    · exact hb line h
    · exact hline line h

/-- When no fetch outcome for `x` is a record and every fetched record
names its own identifier, the output file stays `x`-free along the run. -/
theorem runHydrate_GoodOut (fetch : Nat → String → FetchResult) (x : String)
    (honest : ∀ (i : Nat) (c : String) (d : Record),
      fetch i c = .success (some d) → pyStrip (cellValue d "corporate_number") = c)
    (hxnever : ∀ (i : Nat) (d : Record), fetch i x ≠ .success (some d))
    (rows : List Record) :
    ∀ s : HydrateState, GoodOut x s.out → GoodOut x (runHydrate fetch s rows).out := by
  induction rows with
  | nil => intro s h; exact h
  | cons row rest ih =>
    intro s h
    rw [runHydrate_cons]
    rcases hydrateStep_char fetch s row with ⟨heq, _⟩ | ⟨_, _, _, _, hrest⟩
    · rw [heq]; exact ih s h
    · refine ih _ ?_
      rcases hrest with ⟨d, hf, _, hout, _⟩ | ⟨_, hout, _⟩
      · rw [hout]
        refine GoodOut_append x s.out d h ?_
        rw [honest _ _ _ hf]
        intro hx
        exact hxnever _ _ (hx ▸ hf)
      · rw [hout]; exact h

/-- Claim C10: an identifier enters `_run_hydrate`'s in-memory resume set
only when a detail record was fetched and appended for it; an identifier
all of whose fetches fail or return "not found" is never marked
processed, and (when fetched records name their own identifiers) never
reaches the output file, so a later resume-enabled run fetches it again. -/
theorem c10_resume_set_only_on_append :
    (∀ (fetch : Nat → String → FetchResult) (rows : List Record) (s : HydrateState)
        (x : String),
      x ∉ s.processed → (∀ (i : Nat) (d : Record), fetch i x ≠ .success (some d)) →
      x ∉ (runHydrate fetch s rows).processed)
    ∧ (∀ (fetch1 fetch2 : Nat → String → FetchResult) (infile1 infile2 : CsvFile)
        (x : String) (row : Record),
      (∀ (i : Nat) (c : String) (d : Record),
        fetch1 i c = .success (some d) → pyStrip (cellValue d "corporate_number") = c) →
      (∀ (i : Nat) (d : Record), fetch1 i x ≠ .success (some d)) →
      x ≠ "" → infile2.existsOnDisk = true →
      row ∈ csvRows infile2 → stripCno row = x →
      x ∈ (_run_hydrate fetch2 infile2
            (_run_hydrate fetch1 infile1 ⟨false, []⟩ true).out true).calls) := by
  constructor
  · intro fetch rows s x hnp hnever
    exact runHydrate_never_marked fetch rows s x hnp hnever
  · intro fetch1 fetch2 infile1 infile2 x row honest hxnever hxne hex hrow hid
    have hgood : GoodOut x (_run_hydrate fetch1 infile1 ⟨false, []⟩ true).out := by
      unfold _run_hydrate
      by_cases hi : infile1.existsOnDisk = false
      · rw [if_pos hi]
        exact Or.inl ⟨rfl, rfl⟩
      · rw [if_neg hi]
        exact runHydrate_GoodOut fetch1 x honest hxnever _ _ (Or.inl ⟨rfl, rfl⟩)
    have hnot : x ∉ read_existing_numbers (_run_hydrate fetch1 infile1 ⟨false, []⟩ true).out :=
      GoodOut_not_mem x _ hgood
    unfold _run_hydrate
    rw [if_neg (by simp [hex])]
    refine runHydrate_reaches fetch2 (csvRows infile2) _ x row hrow hid hxne ?_
    simpa using hnot

/-- Witness for C10: every fetch of run 1 fails, so `7` never reaches the
output file and run 2 (resume enabled) fetches it; and `7` is never
marked processed. -/
theorem c10_resume_set_only_on_append_witness :
    ("7" ∉ (runHydrate (fun _ _ => .failure)
        ⟨[], ⟨false, []⟩, 0, 0, 0, []⟩ [[("corporate_number", some "7")]]).processed)
    ∧ "7" ∈ (_run_hydrate (fun _ _ => .failure)
        ⟨true, [["corporate_number", "name"], ["7", "A"]]⟩
        (_run_hydrate (fun _ _ => .failure)
          ⟨true, [["corporate_number", "name"], ["7", "A"]]⟩ ⟨false, []⟩ true).out
        true).calls := by
  constructor
  · exact c10_resume_set_only_on_append.1 (fun _ _ => .failure) _ _ "7" (by decide)
      (fun i d h => FetchResult.noConfusion h)
  · exact c10_resume_set_only_on_append.2 (fun _ _ => .failure) (fun _ _ => .failure)
      ⟨true, [["corporate_number", "name"], ["7", "A"]]⟩
      ⟨true, [["corporate_number", "name"], ["7", "A"]]⟩ "7"
      (rowOfLine LIST_HEADER ["7", "A"])
      (fun i c d h => FetchResult.noConfusion h)
      (fun i d h => FetchResult.noConfusion h)
      (by decide) rfl (by decide) (by decide)

/-! ## Collection-loop lemmas -/

theorem append_rows_append (f : CsvFile) (rows1 rows2 : List Record) (header : List String) :
    append_rows (append_rows f rows1 header) rows2 header
      = append_rows f (rows1 ++ rows2) header := by
  simp [append_rows]

/-- Effect of one collection row loop (`foldl dumpRowStep`) relative to
its starting state: some sublist of the yielded rows is appended, their
stripped identifiers are distinct, non-empty and new to `seen`, the list
file grows by exactly those rows, and `seen` grows by exactly those
identifiers. -/
theorem dumpRows_delta (rows : List Record) :
    ∀ s : DumpState, ∃ newApps : List Record,
      (rows.foldl dumpRowStep s).appended = s.appended ++ newApps
      ∧ ((newApps = [] ∧ (rows.foldl dumpRowStep s).dest = s.dest)
        ∨ (newApps ≠ []
            ∧ (rows.foldl dumpRowStep s).dest = append_rows s.dest newApps LIST_HEADER))
      ∧ (newApps.map stripCno).Nodup
      ∧ (∀ x ∈ newApps.map stripCno, x ≠ "" ∧ x ∉ s.seen)
      ∧ (rows.foldl dumpRowStep s).seen = s.seen ++ newApps.map stripCno := by
  induction rows with
  | nil =>
    intro s
    exact ⟨[], by simp, Or.inl ⟨rfl, rfl⟩, List.nodup_nil, by simp, by simp⟩
  | cons row rest ih =>
    intro s
    rw [List.foldl_cons]
    by_cases h : stripCno row = "" ∨ stripCno row ∈ s.seen
    · have hstep : dumpRowStep s row = s := by simp [dumpRowStep, h]
      rw [hstep]
      exact ih s
    · have h1 : stripCno row ≠ "" := fun hh => h (Or.inl hh)
      have h2 : stripCno row ∉ s.seen := fun hh => h (Or.inr hh)
      have hstep : dumpRowStep s row
          = { s with dest := append_rows s.dest [row] LIST_HEADER
                     seen := s.seen ++ [stripCno row]
                     appended := s.appended ++ [row]
                     total_new := s.total_new + 1 } := by
        simp [dumpRowStep, h]
      rw [hstep]
      obtain ⟨na, hap, hdest, hnd, hnew, hseen⟩ :=
        ih { s with dest := append_rows s.dest [row] LIST_HEADER
                    seen := s.seen ++ [stripCno row]
                    appended := s.appended ++ [row]
                    total_new := s.total_new + 1 }
      refine ⟨row :: na, ?_, ?_, ?_, ?_, ?_⟩
      · rw [hap]
        simp
      · rcases hdest with ⟨hna, hd⟩ | ⟨hna, hd⟩
        · subst hna
          exact Or.inr ⟨by simp, by simpa using hd⟩
        · refine Or.inr ⟨by simp, ?_⟩
          rw [hd]
          show append_rows (append_rows s.dest [row] LIST_HEADER) na LIST_HEADER = _
          rw [append_rows_append]
          rfl
      · rw [List.map_cons, List.nodup_cons]
        refine ⟨fun hx => ?_, hnd⟩
        have hni := (hnew _ hx).2
        exact hni (by simp)
      · intro x hx
        rw [List.map_cons] at hx
        rcases List.mem_cons.1 hx with hx' | hx'
        · exact hx' ▸ ⟨h1, h2⟩
        · have hmem := hnew x hx'
          refine ⟨hmem.1, fun hs => hmem.2 ?_⟩
          exact List.mem_append_left _ hs
      · rw [hseen]
        simp

/-- Effect of the dump branch's whole prefecture loop: same shape as
`dumpRows_delta`, with one `seen` set threading through all prefectures
(and through an abort). -/
theorem runDumpPrefs_delta (server : String → Nat → HttpOutcome) (limit max_pages : Int) :
    ∀ (targets : List String) (s : DumpState),
      ∃ newApps : List Record,
        (runDumpPrefs server limit max_pages targets s).1.appended = s.appended ++ newApps
        ∧ ((newApps = [] ∧ (runDumpPrefs server limit max_pages targets s).1.dest = s.dest)
          ∨ (newApps ≠ []
              ∧ (runDumpPrefs server limit max_pages targets s).1.dest
                  = append_rows s.dest newApps LIST_HEADER))
        ∧ (newApps.map stripCno).Nodup
        ∧ (∀ x ∈ newApps.map stripCno, x ≠ "" ∧ x ∉ s.seen)
        ∧ (runDumpPrefs server limit max_pages targets s).1.seen
            = s.seen ++ newApps.map stripCno := by
  intro targets
  induction targets with
  | nil =>
    intro s
    exact ⟨[], by simp [runDumpPrefs], Or.inl ⟨rfl, by simp [runDumpPrefs]⟩,
      List.nodup_nil, by simp, by simp [runDumpPrefs]⟩
  | cons pref rest ih =>
    intro s
    obtain ⟨d1, hap1, hdest1, hnd1, hnew1, hseen1⟩ :=
      dumpRows_delta (iter_corporate_list (server pref) limit max_pages).yielded
        { s with requests :=
            s.requests + (iter_corporate_list (server pref) limit max_pages).requests }
    have hrun : runDumpPrefs server limit max_pages (pref :: rest) s
        = match (iter_corporate_list (server pref) limit max_pages).failed with
          | some e =>
            ((iter_corporate_list (server pref) limit max_pages).yielded.foldl dumpRowStep
              { s with requests :=
                  s.requests + (iter_corporate_list (server pref) limit max_pages).requests },
             some e)
          | none => runDumpPrefs server limit max_pages rest
              ((iter_corporate_list (server pref) limit max_pages).yielded.foldl dumpRowStep
                { s with requests :=
                    s.requests + (iter_corporate_list (server pref) limit max_pages).requests }) := by
      rw [runDumpPrefs]
    cases hf : (iter_corporate_list (server pref) limit max_pages).failed with
    | some e =>
      rw [hrun, hf]
      exact ⟨d1, hap1, hdest1, hnd1, hnew1, hseen1⟩
    | none =>
      rw [hrun, hf]
      obtain ⟨d2, hap2, hdest2, hnd2, hnew2, hseen2⟩ :=
        ih ((iter_corporate_list (server pref) limit max_pages).yielded.foldl dumpRowStep
          { s with requests :=
              s.requests + (iter_corporate_list (server pref) limit max_pages).requests })
      refine ⟨d1 ++ d2, ?_, ?_, ?_, ?_, ?_⟩
      · rw [hap2, hap1]
        simp
      · rcases hdest1 with ⟨h1e, h1d⟩ | ⟨h1e, h1d⟩ <;>
          rcases hdest2 with ⟨h2e, h2d⟩ | ⟨h2e, h2d⟩
        · subst h1e; subst h2e
          exact Or.inl ⟨rfl, by rw [h2d, h1d]⟩
        · subst h1e
          refine Or.inr ⟨by simpa using h2e, ?_⟩
          rw [h2d, h1d]
          simp
        · subst h2e
          refine Or.inr ⟨by simpa using h1e, ?_⟩
          rw [h2d, h1d]
          simp
        · refine Or.inr ⟨by simp [h1e], ?_⟩
          rw [h2d, h1d, append_rows_append]
      · rw [List.map_append, List.nodup_append]
        refine ⟨hnd1, hnd2, ?_⟩
        intro x hx1 hx2
        have hx1' : x ∈ ((iter_corporate_list (server pref) limit max_pages).yielded.foldl
            dumpRowStep
            { s with requests :=
                s.requests + (iter_corporate_list (server pref) limit max_pages).requests }).seen := by
          rw [hseen1]
          exact List.mem_append_right _ hx1
        exact (hnew2 x hx2).2 hx1'
      · intro x hx
        rw [List.map_append] at hx
        rcases List.mem_append.1 hx with hx' | hx'
        · exact hnew1 x hx'
        · have h2 := hnew2 x hx'
          refine ⟨h2.1, fun hs => h2.2 ?_⟩
          rw [hseen1]
          exact List.mem_append_left _ hs
      · rw [hseen2, hseen1]
        simp

/-! ## List-file round trips -/

/-- A list file as `read_existing_numbers` can decode it: absent (and
empty), or headed by `corporate_number, name`. -/
def WFListFile (f : CsvFile) : Prop :=
  (f.existsOnDisk = false ∧ f.lines = [])
  ∨ (f.existsOnDisk = true ∧ ∃ body, f.lines = LIST_HEADER :: body)

theorem renderRow_list_ne_nil (r : Record) : renderRow LIST_HEADER r ≠ [] := by
  simp [renderRow, LIST_HEADER]

theorem parse_renderRow_list (r : Record) :
    pyStrip (getOrEmpty (rowOfLine LIST_HEADER (renderRow LIST_HEADER r)) "corporate_number")
      = stripCno r := by
  rw [getOrEmpty_rowOfLine_list, renderRow_list_head]
  rw [cellValue_eq_getOrEmpty]
  rfl

theorem WFListFile_append (out0 : CsvFile) (hwf : WFListFile out0) (apps : List Record) :
    WFListFile (append_rows out0 apps LIST_HEADER) := by
  rcases hwf with ⟨he, hl⟩ | ⟨he, body, hl⟩
  · exact Or.inr ⟨rfl, apps.map (renderRow LIST_HEADER), by simp [append_rows, he, hl]⟩
  · exact Or.inr ⟨rfl, body ++ apps.map (renderRow LIST_HEADER), by simp [append_rows, he, hl]⟩

/-- A record appended to a well-formed list file is found again by
`read_existing_numbers` under its stripped identifier. -/
theorem mem_read_existing_append (out0 : CsvFile) (hwf : WFListFile out0)
    (apps : List Record) (x : String) (hx : x ∈ apps.map stripCno) (hne : x ≠ "") :
    x ∈ read_existing_numbers (append_rows out0 apps LIST_HEADER) := by
  obtain ⟨r, hr, hrx⟩ := List.mem_map.1 hx
  have hexists : (append_rows out0 apps LIST_HEADER).existsOnDisk = true := rfl
  rw [read_existing_numbers, if_pos (by rw [hexists])]
  refine List.mem_filterMap.2 ⟨rowOfLine LIST_HEADER (renderRow LIST_HEADER r), ?_, ?_⟩
  · have hrend : renderRow LIST_HEADER r ∈ apps.map (renderRow LIST_HEADER) :=
      List.mem_map.2 ⟨r, hr, rfl⟩
    rcases hwf with ⟨he, hl⟩ | ⟨he, body, hl⟩
    · have hlines : (append_rows out0 apps LIST_HEADER).lines
          = LIST_HEADER :: apps.map (renderRow LIST_HEADER) := by
        simp [append_rows, he, hl]
      rw [csvRows, hlines]
      refine List.mem_map.2 ⟨renderRow LIST_HEADER r, ?_, rfl⟩
      exact List.mem_filter.2 ⟨hrend, by simpa using renderRow_list_ne_nil r⟩
    · have hlines : (append_rows out0 apps LIST_HEADER).lines
          = LIST_HEADER :: (body ++ apps.map (renderRow LIST_HEADER)) := by
        simp [append_rows, he, hl]
      rw [csvRows, hlines]
      refine List.mem_map.2 ⟨renderRow LIST_HEADER r, ?_, rfl⟩
      refine List.mem_filter.2 ⟨List.mem_append_right _ hrend,
        by simpa using renderRow_list_ne_nil r⟩
  · simp only [parse_renderRow_list, hrx]
    rw [if_neg hne]

/-- Appending to a well-formed list file loses no identifier already
decoded by `read_existing_numbers`. -/
theorem mem_read_existing_mono (out0 : CsvFile) (hwf : WFListFile out0)
    (apps : List Record) (x : String) (hx : x ∈ read_existing_numbers out0) :
    x ∈ read_existing_numbers (append_rows out0 apps LIST_HEADER) := by
  rcases hwf with ⟨he, hl⟩ | ⟨he, body, hl⟩
  · rw [read_existing_numbers, if_neg (by simp [he])] at hx
    exact absurd hx (List.not_mem_nil x)
  · rw [read_existing_numbers, if_pos (by rw [he])] at hx
    have hexists : (append_rows out0 apps LIST_HEADER).existsOnDisk = true := rfl
    rw [read_existing_numbers, if_pos (by rw [hexists])]
    obtain ⟨row, hrow, hparse⟩ := List.mem_filterMap.1 hx
    refine List.mem_filterMap.2 ⟨row, ?_, hparse⟩
    rw [csvRows, hl] at hrow
    have hlines : (append_rows out0 apps LIST_HEADER).lines
        = LIST_HEADER :: (body ++ apps.map (renderRow LIST_HEADER)) := by
      simp [append_rows, he, hl]
    rw [csvRows, hlines]
    obtain ⟨line, hline, rfl⟩ := List.mem_map.1 hrow
    refine List.mem_map.2 ⟨line, ?_, rfl⟩
    have hmf := List.mem_filter.1 hline
    exact List.mem_filter.2 ⟨List.mem_append_left _ hmf.1, hmf.2⟩

/-- The stripped identifier column of a list file. -/
def listFileIds (f : CsvFile) : List String :=
  (csvRows f).map (fun r => pyStrip (getOrEmpty r "corporate_number"))

theorem map_parse_render (apps : List Record) :
    ((apps.map (renderRow LIST_HEADER)).map (rowOfLine LIST_HEADER)).map
        (fun r => pyStrip (getOrEmpty r "corporate_number"))
      = apps.map stripCno := by
  induction apps with
  | nil => rfl
  | cons a t ih =>
    simp only [List.map_cons, List.cons.injEq]
    exact ⟨parse_renderRow_list a, ih⟩

theorem listFileIds_append_fresh (apps : List Record) :
    listFileIds (append_rows ⟨false, []⟩ apps LIST_HEADER) = apps.map stripCno := by
  unfold listFileIds
  have hlines : (append_rows ⟨false, []⟩ apps LIST_HEADER).lines
      = LIST_HEADER :: apps.map (renderRow LIST_HEADER) := by
    simp [append_rows]
  rw [csvRows, hlines]
  have hfilter : (apps.map (renderRow LIST_HEADER)).filter (fun l => l ≠ []) =
      apps.map (renderRow LIST_HEADER) := by
    refine List.filter_eq_self.2 ?_
    intro a ha
    rcases List.mem_map.1 ha with ⟨r, _, rfl⟩
    simpa using renderRow_list_ne_nil r
  show List.map (fun r => pyStrip (getOrEmpty r "corporate_number"))
      (List.map (rowOfLine LIST_HEADER)
        (List.filter (fun l => l ≠ []) (List.map (renderRow LIST_HEADER) apps)))
    = List.map stripCno apps
  rw [hfilter]
  exact map_parse_render apps

/-- Run invariant of the pipeline branch's dump phase with resume
enabled: the list file is the initial file plus the rows appended so
far, whose stripped identifiers are distinct, non-empty, and absent from
the initial file's identifier column. -/
def PipeOK (out0 : CsvFile) (s : DumpState) : Prop :=
  ((s.appended = [] ∧ s.dest = out0)
    ∨ (s.appended ≠ [] ∧ s.dest = append_rows out0 s.appended LIST_HEADER))
  ∧ (s.appended.map stripCno).Nodup
  ∧ (∀ x ∈ s.appended.map stripCno, x ≠ "")
  ∧ (∀ x ∈ s.appended.map stripCno, x ∉ read_existing_numbers out0)

theorem runPipelinePrefs_ok (server : String → Nat → HttpOutcome) (limit max_pages : Int)
    (out0 : CsvFile) (hwf : WFListFile out0) :
    ∀ (targets : List String) (s : DumpState), PipeOK out0 s →
      PipeOK out0 (runPipelinePrefs server true limit max_pages targets s).1 := by
  intro targets
  induction targets with
  | nil =>
    intro s h
    simpa [runPipelinePrefs] using h
  | cons pref rest ih =>
    intro s h
    obtain ⟨hdest0, hnd0, hne0, hold0⟩ := h
    obtain ⟨d1, hap1, hdest1, hnd1, hnew1, _⟩ :=
      dumpRows_delta (iter_corporate_list (server pref) limit max_pages).yielded
        { s with seen := read_existing_numbers s.dest
                 requests :=
                   s.requests + (iter_corporate_list (server pref) limit max_pages).requests }
    have holdmem : ∀ x ∈ s.appended.map stripCno, x ∈ read_existing_numbers s.dest := by
      intro x hx
      rcases hdest0 with ⟨he, _⟩ | ⟨_, hd⟩
      · rw [he] at hx
        exact absurd hx (by simp)
      · rw [hd]
        exact mem_read_existing_append out0 hwf s.appended x hx (hne0 x hx)
    have hok' : PipeOK out0
        ((iter_corporate_list (server pref) limit max_pages).yielded.foldl dumpRowStep
          { s with seen := read_existing_numbers s.dest
                   requests :=
                     s.requests
                       + (iter_corporate_list (server pref) limit max_pages).requests }) := by
      refine ⟨?_, ?_, ?_, ?_⟩
      · rw [hap1]
        rcases hdest1 with ⟨h1e, h1d⟩ | ⟨h1e, h1d⟩
        · subst h1e
          rcases hdest0 with ⟨h0e, h0d⟩ | ⟨h0e, h0d⟩
          · refine Or.inl ⟨by simp [h0e], ?_⟩
            rw [h1d]
            exact h0d
          · refine Or.inr ⟨by simpa using h0e, ?_⟩
            rw [h1d]
            show s.dest = append_rows out0 (s.appended ++ []) LIST_HEADER
            rw [List.append_nil]
            exact h0d
        · refine Or.inr ⟨by simp [h1e], ?_⟩
          rw [h1d]
          show append_rows s.dest d1 LIST_HEADER
              = append_rows out0 (s.appended ++ d1) LIST_HEADER
          rcases hdest0 with ⟨h0e, h0d⟩ | ⟨h0e, h0d⟩
          · rw [h0e, h0d]
            simp
          · rw [h0d, append_rows_append]
      · rw [hap1, List.map_append, List.nodup_append]
        refine ⟨hnd0, hnd1, ?_⟩
        intro x hx1 hx2
        exact (hnew1 x hx2).2 (holdmem x hx1)
      · rw [hap1, List.map_append]
        intro x hx
        rcases List.mem_append.1 hx with hx' | hx'
        · exact hne0 x hx'
        · exact (hnew1 x hx').1
      · rw [hap1, List.map_append]
        intro x hx
        rcases List.mem_append.1 hx with hx' | hx'
        · exact hold0 x hx'
        · intro hmem
          refine (hnew1 x hx').2 ?_
          show x ∈ read_existing_numbers s.dest
          rcases hdest0 with ⟨_, h0d⟩ | ⟨_, h0d⟩
          · rw [h0d]
            exact hmem
          · rw [h0d]
            exact mem_read_existing_mono out0 hwf s.appended x hmem
    have hrun : runPipelinePrefs server true limit max_pages (pref :: rest) s
        = match (iter_corporate_list (server pref) limit max_pages).failed with
          | some e =>
            ((iter_corporate_list (server pref) limit max_pages).yielded.foldl dumpRowStep
              { s with seen := read_existing_numbers s.dest
                       requests :=
                         s.requests
                           + (iter_corporate_list (server pref) limit max_pages).requests },
             some e)
          | none => runPipelinePrefs server true limit max_pages rest
              ((iter_corporate_list (server pref) limit max_pages).yielded.foldl dumpRowStep
                { s with seen := read_existing_numbers s.dest
                         requests :=
                           s.requests
                             + (iter_corporate_list (server pref) limit max_pages).requests }) := by
      rw [runPipelinePrefs]
      rfl
    cases hf : (iter_corporate_list (server pref) limit max_pages).failed with
    | some e =>
      rw [hrun, hf]
      exact hok'
    | none =>
      rw [hrun, hf]
      exact ih _ hok'

/-- Claim C1 counterexample: in pipeline mode with resume disabled, the
skip-set is re-initialized to empty at every prefecture, so a server
returning the same identifier for prefectures 01 and 02 makes a single
run append identifier `1` twice. -/
theorem c1_counterexample :
    (((runPipelineDump
        (fun pref page =>
          if (pref = "01" ∨ pref = "02") ∧ page = 1 then
            .response 200 "" ⟨some [[("corporate_number", some "1"), ("name", some "A")]]⟩
          else .response 204 "" ⟨none⟩)
        ⟨false, []⟩ false "all" 5000 10).1.appended.map stripCno).count "1") = 2 := by
  decide

/-- Claim C1 (amended): (a) a single dump-mode run never appends the same
stripped identifier twice, with or without resume; (b) a single
pipeline-mode run with resume enabled never appends the same stripped
identifier twice, provided the list file is absent or headed by the
standard header (without resume the per-prefecture skip-set reset allows
cross-prefecture duplicates); (c) two dump-mode runs with resume enabled
against a fresh list file leave no duplicate identifier in it; (d)
likewise two pipeline-mode runs with resume enabled against a fresh list
file. -/
theorem c1_dedup_idempotence :
    (∀ (server : String → Nat → HttpOutcome) (out : CsvFile) (resume : Bool) (pref : String)
        (limitArg maxPagesArg : Int),
      ((runDump server out resume pref limitArg maxPagesArg).1.appended.map stripCno).Nodup)
    ∧ (∀ (server : String → Nat → HttpOutcome) (out : CsvFile) (pref : String)
        (limitArg maxPagesArg : Int), WFListFile out →
      ((runPipelineDump server out true pref limitArg maxPagesArg).1.appended.map
        stripCno).Nodup)
    ∧ (∀ (server1 server2 : String → Nat → HttpOutcome) (pref : String) (l1 m1 l2 m2 : Int),
      (listFileIds (runDump server2
          (runDump server1 ⟨false, []⟩ true pref l1 m1).1.dest true pref l2 m2).1.dest).Nodup)
    ∧ (∀ (server1 server2 : String → Nat → HttpOutcome) (pref : String) (l1 m1 l2 m2 : Int),
      (listFileIds (runPipelineDump server2
          (runPipelineDump server1 ⟨false, []⟩ true pref l1 m1).1.dest
          true pref l2 m2).1.dest).Nodup) := by
  refine ⟨?_, ?_, ?_, ?_⟩
  · intro server out resume pref l m
    have heq : runDump server out resume pref l m
        = runDumpPrefs server (dumpLimitPassed l) (dumpMaxPagesPassed m)
            (if pref = "all" then prefCodes else [pref])
            { dest := out, seen := if resume then read_existing_numbers out else []
              appended := [], total_new := 0, requests := 0 } := rfl
    obtain ⟨na, hap, _, hnd, _, _⟩ := runDumpPrefs_delta server (dumpLimitPassed l)
      (dumpMaxPagesPassed m) (if pref = "all" then prefCodes else [pref])
      { dest := out, seen := if resume then read_existing_numbers out else []
        appended := [], total_new := 0, requests := 0 }
    rw [heq, hap]
    simpa using hnd
  · intro server out pref l m hwf
    have heq : runPipelineDump server out true pref l m
        = runPipelinePrefs server true l m (if pref = "all" then prefCodes else [pref])
            { dest := out, seen := [], appended := [], total_new := 0, requests := 0 } := rfl
    rw [heq]
    exact (runPipelinePrefs_ok server l m out hwf _ _
      ⟨Or.inl ⟨rfl, rfl⟩, by simp, by simp, by simp⟩).2.1
  · intro server1 server2 pref l1 m1 l2 m2
    have heq1 : runDump server1 ⟨false, []⟩ true pref l1 m1
        = runDumpPrefs server1 (dumpLimitPassed l1) (dumpMaxPagesPassed m1)
            (if pref = "all" then prefCodes else [pref])
            { dest := ⟨false, []⟩, seen := read_existing_numbers ⟨false, []⟩
              appended := [], total_new := 0, requests := 0 } := rfl
    obtain ⟨a1, hap1, hdest1, hnd1, hnew1, _⟩ := runDumpPrefs_delta server1
      (dumpLimitPassed l1) (dumpMaxPagesPassed m1) (if pref = "all" then prefCodes else [pref])
      { dest := ⟨false, []⟩, seen := read_existing_numbers ⟨false, []⟩
        appended := [], total_new := 0, requests := 0 }
    have heq2 : runDump server2 (runDump server1 ⟨false, []⟩ true pref l1 m1).1.dest
          true pref l2 m2
        = runDumpPrefs server2 (dumpLimitPassed l2) (dumpMaxPagesPassed m2)
            (if pref = "all" then prefCodes else [pref])
            { dest := (runDump server1 ⟨false, []⟩ true pref l1 m1).1.dest
              seen := read_existing_numbers
                (runDump server1 ⟨false, []⟩ true pref l1 m1).1.dest
              appended := [], total_new := 0, requests := 0 } := rfl
    obtain ⟨a2, hap2, hdest2, hnd2, hnew2, _⟩ := runDumpPrefs_delta server2
      (dumpLimitPassed l2) (dumpMaxPagesPassed m2) (if pref = "all" then prefCodes else [pref])
      { dest := (runDump server1 ⟨false, []⟩ true pref l1 m1).1.dest
        seen := read_existing_numbers (runDump server1 ⟨false, []⟩ true pref l1 m1).1.dest
        appended := [], total_new := 0, requests := 0 }
    rw [heq2]
    rcases hdest2 with ⟨h2e, h2d⟩ | ⟨h2e, h2d⟩
    · rw [h2d]
      show (listFileIds (runDump server1 ⟨false, []⟩ true pref l1 m1).1.dest).Nodup
      rw [heq1]
      rcases hdest1 with ⟨_, h1d⟩ | ⟨_, h1d⟩
      · rw [h1d]
        show (listFileIds ⟨false, []⟩).Nodup
        decide
      · rw [h1d]
        show (listFileIds (append_rows ⟨false, []⟩ a1 LIST_HEADER)).Nodup
        rw [listFileIds_append_fresh]
        exact hnd1
    · rw [h2d]
      show (listFileIds (append_rows
          (runDump server1 ⟨false, []⟩ true pref l1 m1).1.dest a2 LIST_HEADER)).Nodup
      rw [heq1]
      rcases hdest1 with ⟨h1e, h1d⟩ | ⟨h1e, h1d⟩
      · rw [h1d]
        show (listFileIds (append_rows ⟨false, []⟩ a2 LIST_HEADER)).Nodup
        rw [listFileIds_append_fresh]
        exact hnd2
      · rw [h1d]
        show (listFileIds (append_rows (append_rows ⟨false, []⟩ a1 LIST_HEADER)
            a2 LIST_HEADER)).Nodup
        rw [append_rows_append, listFileIds_append_fresh, List.map_append,
          List.nodup_append]
        refine ⟨hnd1, hnd2, ?_⟩
        intro x hx1 hx2
        refine (hnew2 x hx2).2 ?_
        show x ∈ read_existing_numbers (runDump server1 ⟨false, []⟩ true pref l1 m1).1.dest
        rw [heq1, h1d]
        exact mem_read_existing_append ⟨false, []⟩ (Or.inl ⟨rfl, rfl⟩) a1 x hx1
          (hnew1 x hx1).1
  · intro server1 server2 pref l1 m1 l2 m2
    have hwf1 : WFListFile (⟨false, []⟩ : CsvFile) := Or.inl ⟨rfl, rfl⟩
    have heq1 : runPipelineDump server1 ⟨false, []⟩ true pref l1 m1
        = runPipelinePrefs server1 true l1 m1 (if pref = "all" then prefCodes else [pref])
            { dest := ⟨false, []⟩, seen := [], appended := [], total_new := 0
              requests := 0 } := rfl
    obtain ⟨hdest1, hnd1, hne1, _⟩ := runPipelinePrefs_ok server1 l1 m1 ⟨false, []⟩ hwf1
      (if pref = "all" then prefCodes else [pref])
      { dest := ⟨false, []⟩, seen := [], appended := [], total_new := 0, requests := 0 }
      ⟨Or.inl ⟨rfl, rfl⟩, by simp, by simp, by simp⟩
    have hwfF : WFListFile (runPipelineDump server1 ⟨false, []⟩ true pref l1 m1).1.dest := by
      rw [heq1]
      rcases hdest1 with ⟨_, h1d⟩ | ⟨_, h1d⟩
      · rw [h1d]
        exact hwf1
      · rw [h1d]
        exact WFListFile_append _ hwf1 _
    have heq2 : runPipelineDump server2
          (runPipelineDump server1 ⟨false, []⟩ true pref l1 m1).1.dest true pref l2 m2
        = runPipelinePrefs server2 true l2 m2 (if pref = "all" then prefCodes else [pref])
            { dest := (runPipelineDump server1 ⟨false, []⟩ true pref l1 m1).1.dest
              seen := [], appended := [], total_new := 0, requests := 0 } := rfl
    obtain ⟨hdest2, hnd2, hne2, hold2⟩ := runPipelinePrefs_ok server2 l2 m2
      (runPipelineDump server1 ⟨false, []⟩ true pref l1 m1).1.dest hwfF
      (if pref = "all" then prefCodes else [pref])
      { dest := (runPipelineDump server1 ⟨false, []⟩ true pref l1 m1).1.dest
        seen := [], appended := [], total_new := 0, requests := 0 }
      ⟨Or.inl ⟨rfl, rfl⟩, by simp, by simp, by simp⟩
    rw [heq2]
    rcases hdest2 with ⟨_, h2d⟩ | ⟨_, h2d⟩
    · rw [h2d]
      show (listFileIds (runPipelineDump server1 ⟨false, []⟩ true pref l1 m1).1.dest).Nodup
      rw [heq1]
      rcases hdest1 with ⟨_, h1d⟩ | ⟨_, h1d⟩
      · rw [h1d]
        show (listFileIds ⟨false, []⟩).Nodup
        decide
      · rw [h1d, listFileIds_append_fresh]
        exact hnd1
    · rw [h2d]
      rcases hdest1 with ⟨_, h1d⟩ | ⟨_, h1d⟩
      · have hfile : (runPipelineDump server1 ⟨false, []⟩ true pref l1 m1).1.dest
            = (⟨false, []⟩ : CsvFile) := by
          rw [heq1]
          exact h1d
        rw [hfile] at hnd2 ⊢
        rw [listFileIds_append_fresh]
        exact hnd2
      · have hfile : (runPipelineDump server1 ⟨false, []⟩ true pref l1 m1).1.dest
            = append_rows ⟨false, []⟩
                (runPipelinePrefs server1 true l1 m1
                  (if pref = "all" then prefCodes else [pref])
                  { dest := ⟨false, []⟩, seen := [], appended := [], total_new := 0
                    requests := 0 }).1.appended LIST_HEADER := by
          rw [heq1]
          exact h1d
        rw [hfile] at hnd2 hold2 ⊢
        rw [append_rows_append, listFileIds_append_fresh, List.map_append,
          List.nodup_append]
        refine ⟨hnd1, hnd2, ?_⟩
        intro x hx1 hx2
        refine hold2 x hx2 ?_
        exact mem_read_existing_append ⟨false, []⟩ hwf1 _ x hx1 (hne1 x hx1)

/-- Witness for C1 (amended), part (b): a resume-enabled pipeline run
over a fresh list file, with a server yielding two records, appends two
distinct identifiers. -/
theorem c1_dedup_idempotence_witness :
    ((runPipelineDump
        (fun _ page =>
          if page = 1 then
            .response 200 "" ⟨some
              [ [("corporate_number", some "1"), ("name", some "A")]
              , [("corporate_number", some "2"), ("name", some "B")] ]⟩
          else .response 204 "" ⟨none⟩)
        ⟨false, []⟩ true "01" 5000 10).1.appended.map stripCno).Nodup :=
  c1_dedup_idempotence.2.1
    (fun _ page =>
      if page = 1 then
        .response 200 "" ⟨some
          [ [("corporate_number", some "1"), ("name", some "A")]
          , [("corporate_number", some "2"), ("name", some "B")] ]⟩
      else .response 204 "" ⟨none⟩)
    ⟨false, []⟩ "01" 5000 10 (Or.inl ⟨rfl, rfl⟩)

/-- Claim C9 counterexample: the pipeline branch passes `--limit` and
`--max-pages` to the Pagination Collector unclamped: with `--max-pages
12` a pipeline run issues 12 list requests for one region (impossible
for a ceiling in 1–10), while the dump branch with the same command-line
values clamps them and issues 10. -/
theorem c9_counterexample :
    (runPipelineDump
        (fun _ _ => .response 200 ""
          ⟨some [[("corporate_number", some "1"), ("name", some "A")]]⟩)
        ⟨false, []⟩ false "01" 0 12).1.requests = 12
    ∧ (runDump
        (fun _ _ => .response 200 ""
          ⟨some [[("corporate_number", some "1"), ("name", some "A")]]⟩)
        ⟨false, []⟩ false "01" 0 12).1.requests = 10 := by
  exact ⟨by decide, by decide⟩

/-- Claim C9 (amended): in dump mode the page size passed to the
Pagination Collector always lies in 1–5000 and the page ceiling in 1–10,
regardless of the command-line values; in pipeline mode the command-line
values are passed through unmodified. -/
theorem c9_page_parameter_clamping (limitArg maxPagesArg : Int) :
    1 ≤ dumpLimitPassed limitArg ∧ dumpLimitPassed limitArg ≤ 5000
    ∧ 1 ≤ dumpMaxPagesPassed maxPagesArg ∧ dumpMaxPagesPassed maxPagesArg ≤ 10
    ∧ (∀ (server : String → Nat → HttpOutcome) (out : CsvFile) (resume : Bool)
        (pref : String),
        runDump server out resume pref limitArg maxPagesArg
          = runDumpPrefs server (dumpLimitPassed limitArg) (dumpMaxPagesPassed maxPagesArg)
              (if pref = "all" then prefCodes else [pref])
              { dest := out, seen := if resume then read_existing_numbers out else []
                appended := [], total_new := 0, requests := 0 })
    ∧ (∀ (server : String → Nat → HttpOutcome) (list_out : CsvFile) (resume : Bool)
        (pref : String),
        runPipelineDump server list_out resume pref limitArg maxPagesArg
          = runPipelinePrefs server resume limitArg maxPagesArg
              (if pref = "all" then prefCodes else [pref])
              { dest := list_out, seen := [], appended := [], total_new := 0
                requests := 0 }) := by
  refine ⟨?_, ?_, ?_, ?_, fun _ _ _ _ => rfl, fun _ _ _ _ => rfl⟩
  · unfold dumpLimitPassed
    omega
  · unfold dumpLimitPassed
    omega
  · unfold dumpMaxPagesPassed
    omega
  · unfold dumpMaxPagesPassed
    omega

/-- Claim C8: `main` returns exit status 2 with no list request and no
detail fetch when the credential is missing or empty; with a credential
present, every normally completed run of any mode returns exit status 0
(including enrichment runs that recorded per-row errors). -/
theorem c8_exit_status (tok : Option String) (cmd : Cmd)
    (server : String → Nat → HttpOutcome) (fetch : Nat → String → FetchResult)
    (dump_out list_out enrich_out infile : CsvFile) (resume : Bool) (pref : String)
    (limitArg maxPagesArg : Int) :
    (tok.getD "" = "" →
      mainModel tok cmd server fetch dump_out list_out enrich_out infile resume pref
        limitArg maxPagesArg = some (2, 0, []))
    ∧ (tok.getD "" ≠ "" → ∀ (code : Int) (reqs : Nat) (calls : List String),
      mainModel tok cmd server fetch dump_out list_out enrich_out infile resume pref
        limitArg maxPagesArg = some (code, reqs, calls) → code = 0) := by
  constructor
  · intro h
    simp [mainModel, h]
  · intro h code reqs calls hm
    unfold mainModel at hm
    rw [if_neg h] at hm
    cases cmd with
    | dump =>
      rcases hr : runDump server dump_out resume pref limitArg maxPagesArg with ⟨s, e⟩
      rw [hr] at hm
      cases e with
      | some err => simp at hm
      | none =>
        simp only [Option.some.injEq, Prod.mk.injEq] at hm
        exact hm.1.symm
    | hydrate =>
      have hnn : ((_run_hydrate fetch infile enrich_out resume).added : Int) ≥ 0 :=
        Int.natCast_nonneg _
      have hm' : some
          ((if ((_run_hydrate fetch infile enrich_out resume).added : Int) ≥ 0
              then (0 : Int) else 1), (0 : Nat),
            (_run_hydrate fetch infile enrich_out resume).calls)
          = some (code, reqs, calls) := hm
      rw [if_pos hnn] at hm'
      simp only [Option.some.injEq, Prod.mk.injEq] at hm'
      exact hm'.1.symm
    | pipeline =>
      rcases hr : runPipelineDump server list_out resume pref limitArg maxPagesArg with ⟨s, e⟩
      rw [hr] at hm
      cases e with
      | some err => simp at hm
      | none =>
        simp only [Option.some.injEq, Prod.mk.injEq] at hm
        exact hm.1.symm
    | none_given =>
      simp only [Option.some.injEq, Prod.mk.injEq] at hm
      exact hm.1.symm

/-- Witness for C8: a missing token exits with code 2 before any network
activity; with a token, a completed pipeline run exits 0. -/
theorem c8_exit_status_witness :
    (mainModel none .dump (fun _ _ => .timeout) (fun _ _ => .failure)
      ⟨false, []⟩ ⟨false, []⟩ ⟨false, []⟩ ⟨false, []⟩ false "01" 5000 10
      = some (2, 0, []))
    ∧ (0 : Int) = 0 := by
  constructor
  · exact (c8_exit_status none .dump (fun _ _ => .timeout) (fun _ _ => .failure)
      ⟨false, []⟩ ⟨false, []⟩ ⟨false, []⟩ ⟨false, []⟩ false "01" 5000 10).1 rfl
  · exact (c8_exit_status (some "t") .pipeline (fun _ _ => .response 204 "" ⟨none⟩)
      (fun _ _ => .failure) ⟨false, []⟩ ⟨false, []⟩ ⟨false, []⟩ ⟨false, []⟩ false "01"
      5000 10).2 (by decide) 0 1 [] (by decide)

end Gbiz
